import Mathlib

/-!
# Verification of the poem-middlewares request authenticator

A shallow embedding of the two middlewares of this repository:

* `src/param_verify.rs` — `SignVerifyEndpoint::call`, the HMAC-SHA256
  request authenticator (header extraction, timestamp window, canonical
  signing string, Base64 signature decode, HMAC comparison, body
  restoration);
* `src/no_cache.rs` — `NoCacheEndpoint::call`, the no-cache response
  header filter.

Machine integers are modelled as `Nat`/`Int` with explicit reduction
modulo `2^32` (SHA-256 words) and two's-complement wrapping at 64 bits
(the Rust `i64` timestamp arithmetic).  The external crates the source
uses (`sha2`, `hmac`, `base64`, UTF-8 decoding from `std`) are embedded
as the standards they implement: FIPS 180-4 SHA-256, RFC 2104/FIPS 198-1
HMAC, RFC 4648 standard Base64 with required canonical padding, and
strict RFC 3629 UTF-8.
-/

namespace PoemMW

/-! ## HTTP data model -/

/-- HTTP request method, as compared by `req.method() != Method::GET` in
`SignVerifyEndpoint::call`. -/
inductive Method where
  | GET
  | POST
  | PUT
  | DELETE
  | PATCH
  | HEAD
  | OPTIONS
deriving DecidableEq

/-- An inbound HTTP request as seen by `SignVerifyEndpoint::call`:
the method, the request target exactly as transmitted
(`req.uri().to_string()` for an origin-form target: path plus query
string), the two headers the authenticator reads (absent or present,
first value), and the full body bytes that `take_body().into_bytes()`
yields. -/
structure HttpRequest where
  method : Method
  uri : String
  apiSig : Option String
  timestampHeader : Option String
  body : List Nat
deriving DecidableEq

/-! ## Rust `i64` arithmetic

`(timestamp - now).abs() > self.allowed_time_window` is `i64`
arithmetic: subtraction and `abs` wrap two's-complement at 64 bits
(release-profile semantics; in a debug build the same overflow panics,
so at the overflowing inputs the code never takes the documented
reject-or-accept path either way). -/

/-- Two's-complement wrap of an integer into `[-2^63, 2^63)`. -/
def i64Wrap (x : Int) : Int :=
  (x + 9223372036854775808) % 18446744073709551616 - 9223372036854775808

/-- Rust `i64::abs`: negation of a negative value, wrapping at 64 bits
(so `i64::MIN.abs() = i64::MIN`). -/
def i64Abs (x : Int) : Int :=
  if x < 0 then i64Wrap (-x) else x

/-- The timestamp-window test of `SignVerifyEndpoint::call` line 76:
`(timestamp - now).abs() > self.allowed_time_window`, in `i64`
arithmetic. `true` means the request is rejected with 401
"request timeout". -/
def timestampOutOfWindow (timestamp now allowedTimeWindow : Int) : Bool :=
  i64Abs (i64Wrap (timestamp - now)) > allowedTimeWindow

/-! ## `str::parse::<i64>` -/

/-- Decimal value of an ASCII digit. -/
def digitVal (c : Char) : Option Nat :=
  if 48 ≤ c.toNat ∧ c.toNat ≤ 57 then some (c.toNat - 48) else none

/-- Accumulate decimal digits; any non-digit fails. -/
def parseDigitsAux : List Char → Nat → Option Nat
  | [], acc => some acc
  | c :: rest, acc =>
    match digitVal c with
    | some d => parseDigitsAux rest (acc * 10 + d)
    | none => none

/-- Parse a non-empty string of decimal digits. -/
def parseNatDigits : List Char → Option Nat
  | [] => none
  | c :: rest => parseDigitsAux (c :: rest) 0

/-- Rust `str::parse::<i64>`: optional single leading sign, then one or
more ASCII decimal digits, failing on anything else and on values
outside `[-2^63, 2^63)`. -/
def parseI64 (s : String) : Option Int :=
  match s.data with
  | '+' :: rest =>
    match parseNatDigits rest with
    | some n => if n ≤ 9223372036854775807 then some (n : Int) else none
    | none => none
  | '-' :: rest =>
    match parseNatDigits rest with
    | some n => if n ≤ 9223372036854775808 then some (-(n : Int)) else none
    | none => none
  | l =>
    match parseNatDigits l with
    | some n => if n ≤ 9223372036854775807 then some (n : Int) else none
    | none => none

/-! ## Strict UTF-8 (`String::from_utf8`) -/

/-- UTF-8 continuation byte test: `0x80 ≤ b < 0xC0`. -/
def contByte (b : Nat) : Bool :=
  128 ≤ b && b < 192

/-- Strict UTF-8 decoding (RFC 3629, as enforced by Rust
`String::from_utf8`): rejects stray continuation bytes, overlong
encodings, surrogates, code points above `U+10FFFF`, and truncated
sequences. -/
def utf8DecodeList : List Nat → Option (List Char)
  | [] => some []
  | b :: rest =>
    if b < 128 then
      (utf8DecodeList rest).map (fun cs => Char.ofNat b :: cs)
    else if b < 194 then
      none
    else if b < 224 then
      match rest with
      | b1 :: rest2 =>
        if contByte b1 then
          (utf8DecodeList rest2).map
            (fun cs => Char.ofNat ((b - 192) * 64 + (b1 - 128)) :: cs)
        else none
      | [] => none
    else if b < 240 then
      match rest with
      | b1 :: b2 :: rest3 =>
        if (if b = 224 then 160 ≤ b1 && b1 < 192
            else if b = 237 then 128 ≤ b1 && b1 < 160
            else contByte b1) && contByte b2 then
          (utf8DecodeList rest3).map
            (fun cs =>
              Char.ofNat ((b - 224) * 4096 + (b1 - 128) * 64 + (b2 - 128)) :: cs)
        else none
      | _ => none
    else if b < 245 then
      match rest with
      | b1 :: b2 :: b3 :: rest4 =>
        if (if b = 240 then 144 ≤ b1 && b1 < 192
            else if b = 244 then 128 ≤ b1 && b1 < 144
            else contByte b1) && contByte b2 && contByte b3 then
          (utf8DecodeList rest4).map
            (fun cs =>
              Char.ofNat
                ((b - 240) * 262144 + (b1 - 128) * 4096 + (b2 - 128) * 64
                  + (b3 - 128)) :: cs)
        else none
      | _ => none
    else none

/-- Rust `String::from_utf8` on the body bytes. -/
def utf8Decode (bs : List Nat) : Option String :=
  (utf8DecodeList bs).map String.mk

/-- UTF-8 encoding of one character (used for `str::as_bytes` of the
secret key and of the signing string). -/
def charUtf8 (c : Char) : List Nat :=
  let n := c.toNat
  if n < 128 then [n]
  else if n < 2048 then [192 + n / 64, 128 + n % 64]
  else if n < 65536 then [224 + n / 4096, 128 + n / 64 % 64, 128 + n % 64]
  else [240 + n / 262144, 128 + n / 4096 % 64, 128 + n / 64 % 64, 128 + n % 64]

/-- Rust `str::as_bytes`: the UTF-8 bytes of a string. -/
def strBytes (s : String) : List Nat :=
  s.data.foldr (fun c acc => charUtf8 c ++ acc) []

/-! ## Standard Base64 (RFC 4648, `base64::engine::general_purpose::STANDARD`)

The `STANDARD` engine encodes with padding and decodes requiring
canonical padding: length a multiple of four, `=` only at the end, and
the unused trailing bits of the final quantum zero. -/

/-- The standard Base64 alphabet, index to character. -/
def b64Char (n : Nat) : Char :=
  if n < 26 then Char.ofNat (65 + n)
  else if n < 52 then Char.ofNat (97 + (n - 26))
  else if n < 62 then Char.ofNat (48 + (n - 52))
  else if n = 62 then Char.ofNat 43
  else Char.ofNat 47

/-- The standard Base64 alphabet, character to index. -/
def b64Val (c : Char) : Option Nat :=
  if 65 ≤ c.toNat ∧ c.toNat ≤ 90 then some (c.toNat - 65)
  else if 97 ≤ c.toNat ∧ c.toNat ≤ 122 then some (c.toNat - 97 + 26)
  else if 48 ≤ c.toNat ∧ c.toNat ≤ 57 then some (c.toNat - 48 + 52)
  else if c.toNat = 43 then some 62
  else if c.toNat = 47 then some 63
  else none

/-- Base64-encode bytes, three at a time, padding the final quantum
with `=`. -/
def base64EncodeList : List Nat → List Char
  | [] => []
  | [b0] =>
    [b64Char (b0 / 4), b64Char (b0 % 4 * 16), '=', '=']
  | [b0, b1] =>
    [b64Char (b0 / 4), b64Char (b0 % 4 * 16 + b1 / 16), b64Char (b1 % 16 * 4), '=']
  | b0 :: b1 :: b2 :: rest =>
    b64Char (b0 / 4) :: b64Char (b0 % 4 * 16 + b1 / 16)
      :: b64Char (b1 % 16 * 4 + b2 / 64) :: b64Char (b2 % 64)
      :: base64EncodeList rest

/-- The crate call `general_purpose::STANDARD.encode`. -/
def base64Encode (bs : List Nat) : String :=
  String.mk (base64EncodeList bs)

/-- Base64-decode characters four at a time, requiring canonical
padding and zero trailing bits; any violation fails. -/
def base64DecodeList : List Char → Option (List Nat)
  | [] => some []
  | c0 :: c1 :: c2 :: c3 :: rest =>
    match b64Val c0, b64Val c1 with
    | some v0, some v1 =>
      if c2 = '=' then
        if c3 = '=' ∧ rest = [] ∧ v1 % 16 = 0 then
          some [v0 * 4 + v1 / 16]
        else none
      else
        match b64Val c2 with
        | some v2 =>
          if c3 = '=' then
            if rest = [] ∧ v2 % 4 = 0 then
              some [v0 * 4 + v1 / 16, v1 % 16 * 16 + v2 / 4]
            else none
          else
            match b64Val c3 with
            | some v3 =>
              (base64DecodeList rest).map
                (fun tail =>
                  (v0 * 4 + v1 / 16) :: (v1 % 16 * 16 + v2 / 4)
                    :: (v2 % 4 * 64 + v3) :: tail)
            | none => none
        | none => none
    | _, _ => none
  | _ => none

/-- The crate call `general_purpose::STANDARD.decode`. -/
def base64Decode (s : String) : Option (List Nat) :=
  base64DecodeList s.data

/-! ## SHA-256 (FIPS 180-4), in `Nat` with explicit reduction mod `2^32` -/

/-- Reduce to a 32-bit word. -/
def w32 (x : Nat) : Nat :=
  x % 4294967296

/-- Right rotation of a 32-bit word. -/
def rotr32 (n x : Nat) : Nat :=
  w32 (x >>> n ||| x <<< (32 - n))

/-- The choose function `Ch(x,y,z) = (x ∧ y) ⊕ (¬x ∧ z)`; complement as xor with the 32-bit
mask. -/
def shaCh (x y z : Nat) : Nat :=
  (x &&& y) ^^^ ((x ^^^ 4294967295) &&& z)

/-- The majority function `Maj(x,y,z) = (x ∧ y) ⊕ (x ∧ z) ⊕ (y ∧ z)`. -/
def shaMaj (x y z : Nat) : Nat :=
  (x &&& y) ^^^ (x &&& z) ^^^ (y &&& z)

/-- Big sigma 0. -/
def bsig0 (x : Nat) : Nat :=
  rotr32 2 x ^^^ rotr32 13 x ^^^ rotr32 22 x

/-- Big sigma 1. -/
def bsig1 (x : Nat) : Nat :=
  rotr32 6 x ^^^ rotr32 11 x ^^^ rotr32 25 x

/-- Small sigma 0. -/
def ssig0 (x : Nat) : Nat :=
  rotr32 7 x ^^^ rotr32 18 x ^^^ (x >>> 3)

/-- Small sigma 1. -/
def ssig1 (x : Nat) : Nat :=
  rotr32 17 x ^^^ rotr32 19 x ^^^ (x >>> 10)

/-- The eight SHA-256 initial hash values. -/
def shaH0 : List Nat :=
  [1779033703, 3144134277, 1013904242, 2773480762,
   1359893119, 2600822924, 528734635, 1541459225]

/-- The 64 SHA-256 round constants. -/
def shaK : List Nat :=
  [1116352408, 1899447441, 3049323471, 3921009573,
   961987163, 1508970993, 2453635748, 2870763221,
   3624381080, 310598401, 607225278, 1426881987,
   1925078388, 2162078206, 2614888103, 3248222580,
   3835390401, 4022224774, 264347078, 604807628,
   770255983, 1249150122, 1555081692, 1996064986,
   2554220882, 2821834349, 2952996808, 3210313671,
   3336571891, 3584528711, 113926993, 338241895,
   666307205, 773529912, 1294757372, 1396182291,
   1695183700, 1986661051, 2177026350, 2456956037,
   2730485921, 2820302411, 3259730800, 3345764771,
   3516065817, 3600352804, 4094571909, 275423344,
   430227734, 506948616, 659060556, 883997877,
   958139571, 1322822218, 1537002063, 1747873779,
   1955562222, 2024104815, 2227730452, 2361852424,
   2428436474, 2756734187, 3204031479, 3329325298]

/-- Big-endian byte serialization of a value into `k` bytes. -/
def bytesBE : Nat → Nat → List Nat
  | 0, _ => []
  | k + 1, v => bytesBE k (v / 256) ++ [v % 256]

/-- Group bytes four at a time into big-endian 32-bit words. -/
def wordsOfBytes : List Nat → List Nat
  | b0 :: b1 :: b2 :: b3 :: rest =>
    (b0 * 16777216 + b1 * 65536 + b2 * 256 + b3) :: wordsOfBytes rest
  | _ => []

/-- SHA-256 padding (FIPS 180-4 §5.1.1): append `0x80`, zeros to 56 mod
64, then the 64-bit big-endian bit length. -/
def sha256Pad (msg : List Nat) : List Nat :=
  msg ++ 128 :: List.replicate ((119 - msg.length % 64) % 64) 0
    ++ bytesBE 8 (8 * msg.length)

/-- Extend the message schedule: given the words so far in reverse
order (newest first), prepend `n` more words
`σ₁(w[t-2]) + w[t-7] + σ₀(w[t-15]) + w[t-16]`. -/
def schedExtend : Nat → List Nat → List Nat
  | 0, ws => ws
  | n + 1, ws =>
    schedExtend n
      (w32 (ssig1 (ws.getD 1 0) + ws.getD 6 0 + ssig0 (ws.getD 14 0)
        + ws.getD 15 0) :: ws)

/-- One SHA-256 compression round on the eight-register state. -/
def sha256Round (st : List Nat) (k w : Nat) : List Nat :=
  match st with
  | [a, b, c, d, e, f, g, h] =>
    [w32 (w32 (h + bsig1 e + shaCh e f g + k + w) + w32 (bsig0 a + shaMaj a b c)),
     a, b, c,
     w32 (d + w32 (h + bsig1 e + shaCh e f g + k + w)),
     e, f, g]
  | _ => st

/-- Process one 16-word block, returning the updated 8-word state. -/
def sha256Compress (h : List Nat) (block : List Nat) : List Nat :=
  let ws := (schedExtend 48 block.reverse).reverse
  let st := (List.zip shaK ws).foldl (fun st kw => sha256Round st kw.1 kw.2) h
  List.zipWith (fun x y => w32 (x + y)) h st

/-- Split a word list into 16-word blocks; the padded message is always
a whole number of blocks, so the catch-all never fires on a `sha256Pad`
output. -/
def chunk16 : List Nat → List (List Nat)
  | w0 :: w1 :: w2 :: w3 :: w4 :: w5 :: w6 :: w7
      :: w8 :: w9 :: w10 :: w11 :: w12 :: w13 :: w14 :: w15 :: rest =>
    [w0, w1, w2, w3, w4, w5, w6, w7, w8, w9, w10, w11, w12, w13, w14, w15]
      :: chunk16 rest
  | _ => []

/-- Serialize a word list to big-endian bytes, four per word. -/
def wordsToBytes (ws : List Nat) : List Nat :=
  ws.foldr (fun w acc => bytesBE 4 w ++ acc) []

/-- SHA-256 of a byte sequence (FIPS 180-4), producing the 32 digest
bytes. -/
def sha256 (msg : List Nat) : List Nat :=
  wordsToBytes ((chunk16 (wordsOfBytes (sha256Pad msg))).foldl sha256Compress shaH0)

/-! ## HMAC-SHA256 (RFC 2104 / FIPS 198-1), as the `hmac` crate -/

/-- HMAC-SHA256: keys longer than the 64-byte block are hashed first,
then zero-padded; inner pad `0x36`, outer pad `0x5C`. -/
def hmacSha256 (key msg : List Nat) : List Nat :=
  let k0 := if 64 < key.length then sha256 key else key
  let kp := k0 ++ List.replicate (64 - k0.length) 0
  sha256 ((kp.map (fun b => b ^^^ 92))
    ++ sha256 ((kp.map (fun b => b ^^^ 54)) ++ msg))

/-! ## The signing string (`param_verify.rs` lines 88-100) -/

/-- One step of `str::split('?')` followed by `.last().unwrap()`: the
segment of the character list after its final `?` (the whole list when
no `?` occurs). `split` always yields at least one segment, so the
source's `unwrap` never panics. -/
def splitLastAux : List Char → List Char → List Char
  | [], acc => acc.reverse
  | c :: rest, acc =>
    if c = '?' then splitLastAux rest []
    else splitLastAux rest (c :: acc)

/-- The source expression `uri.to_string().split('?').last().unwrap()`. -/
def splitLast (s : String) : String :=
  String.mk (splitLastAux s.data [])

/-- The `string_to_sign` built by `SignVerifyEndpoint::call`: the last
`?`-separated segment of the URI string, then, when the method is not
GET, the UTF-8-decoded body text appended with no separator. -/
def signingString (method : Method) (uri : String) (bodyStr : String) : String :=
  let base := splitLast uri
  if method ≠ Method.GET then base ++ bodyStr else base

/-! ## The verifying endpoint (`SignVerifyEndpoint::call`) -/

/-- What `SignVerifyEndpoint::call` does with a request: reject with an
HTTP status and reason (`poem::Error::from_string`), panic (the
`Result::unwrap()` on line 112 applied to an `Err`; the constructor
records the error value the code built and then unwrapped), or forward
a request to the wrapped endpoint. -/
inductive CallOutcome where
  | reject (status : Nat) (msg : String)
  | panicked (status : Nat) (msg : String)
  | forward (req : HttpRequest)
deriving DecidableEq

/-- The endpoint `SignVerifyEndpoint::call` (`param_verify.rs` lines 49-124), with
the current Unix time `now` passed explicitly in place of
`Utc::now()`: read `apiSig`, read and parse `timestamp`, check the
symmetric window, build the signing string from the last `?`-segment of
the URI and (for non-GET) the UTF-8 body text, Base64-decode the
signature (panicking on failure, line 112's `unwrap`), compare it with
the HMAC-SHA256 digest, and on success forward the request with the
consumed body bytes restored by `set_body`. -/
def signVerifyCall (secretKey : String) (allowedTimeWindow : Int) (now : Int)
    (req : HttpRequest) : CallOutcome :=
  match req.apiSig with
  | none => CallOutcome.reject 400 "missing header apiSig"
  | some sign =>
    match req.timestampHeader with
    | none => CallOutcome.reject 400 "missing header timestamp"
    | some tsStr =>
      match parseI64 tsStr with
      | none => CallOutcome.reject 400 "timestamp parse error"
      | some timestamp =>
        if timestampOutOfWindow timestamp now allowedTimeWindow then
          CallOutcome.reject 401 "request timeout"
        else
          match utf8Decode req.body with
          | none => CallOutcome.reject 400 "body parse error"
          | some bodyStr =>
            match base64Decode sign with
            | none => CallOutcome.panicked 400 "base64 decode signature error"
            | some signDecode =>
              if signDecode
                  = hmacSha256 (strBytes secretKey)
                      (strBytes (signingString req.method req.uri bodyStr)) then
                CallOutcome.forward { req with body := req.body }
              else
                CallOutcome.reject 401 "api signature verify error"

/-- The accept/reject decision of a call, with the forwarded request
erased: what "the verification outcome" of a request is, independent of
the payload handed downstream. -/
inductive Decision where
  | accepted
  | rejected (status : Nat) (msg : String)
  | panicked (status : Nat) (msg : String)
deriving DecidableEq

/-- Project a call outcome to its decision. -/
def decisionOf : CallOutcome → Decision
  | CallOutcome.reject s m => Decision.rejected s m
  | CallOutcome.panicked s m => Decision.panicked s m
  | CallOutcome.forward _ => Decision.accepted

/-! ## The no-cache filter (`no_cache.rs`) -/

/-- An HTTP response: its header map, as name-value pairs (names in the
lower-case form the `http` crate's `HeaderName` constants use), plus
the status and body, which the filter never touches. -/
structure HttpResponse where
  status : Nat
  headers : List (String × String)
  body : List Nat
deriving DecidableEq

/-- The map operation `http::HeaderMap::insert`: associate the name with exactly this
value, dropping any previous values for the name and leaving every
other name's entries alone. -/
def headerInsert (name value : String) (hs : List (String × String)) :
    List (String × String) :=
  (name, value) :: hs.filter (fun p => p.1 ≠ name)

/-- Look a header up by name (first value). -/
def headerGet (name : String) (hs : List (String × String)) : Option String :=
  (hs.find? (fun p => p.1 = name)).map (fun p => p.2)

/-- The endpoint `NoCacheEndpoint::call` (`no_cache.rs` lines 26-46), applied to the
downstream response: insert `Cache-Control`, then `Expires`, then
`Pragma`. -/
def noCacheCall (resp : HttpResponse) : HttpResponse :=
  { resp with
    headers :=
      headerInsert "pragma" "no-cache"
        (headerInsert "expires" "0"
          (headerInsert "cache-control"
            "no-store, no-cache, must-revalidate, max-age=0" resp.headers)) }

/-! ## Helper lemmas -/

/-- Decoding inverts the Base64 alphabet map. -/
theorem b64Val_b64Char : ∀ n, n < 64 → b64Val (b64Char n) = some n := by decide

/-- No alphabet character is the padding character. -/
theorem b64Char_ne_pad : ∀ n, n < 64 → ¬ b64Char n = '=' := by decide

/-- Every byte `bytesBE` produces is below 256. -/
theorem bytesBE_lt : ∀ (k v : Nat), ∀ b ∈ bytesBE k v, b < 256
  | 0, _ => by simp [bytesBE]
  | k + 1, v => by
    intro b hb
    simp only [bytesBE, List.mem_append, List.mem_singleton] at hb
    rcases hb with hb | hb
    · exact bytesBE_lt k (v / 256) b hb
    · omega

/-- Every byte `wordsToBytes` produces is below 256. -/
theorem wordsToBytes_lt : ∀ ws : List Nat, ∀ b ∈ wordsToBytes ws, b < 256 := by
  intro ws
  induction ws with
  | nil => simp [wordsToBytes]
  | cons w ws ih =>
    intro b hb
    simp only [wordsToBytes, List.foldr_cons, List.mem_append] at hb
    rcases hb with hb | hb
    · exact bytesBE_lt 4 w b hb
    · exact ih b hb

/-- Every SHA-256 digest byte is below 256. -/
theorem sha256_lt (msg : List Nat) : ∀ b ∈ sha256 msg, b < 256 := by
  intro b hb
  exact wordsToBytes_lt _ b hb

/-- Every HMAC-SHA256 digest byte is below 256. -/
theorem hmacSha256_lt (key msg : List Nat) : ∀ b ∈ hmacSha256 key msg, b < 256 := by
  intro b hb
  simp only [hmacSha256] at hb
  exact sha256_lt _ b hb

/-- Base64 decoding inverts encoding on byte lists. -/
theorem base64_roundtrip : ∀ bs : List Nat, (∀ b ∈ bs, b < 256) →
    base64DecodeList (base64EncodeList bs) = some bs
  | [], _ => rfl
  | [b0], h => by
    have hb0 : b0 < 256 := h b0 (by simp)
    simp only [base64EncodeList, base64DecodeList,
      b64Val_b64Char (b0 / 4) (by omega), b64Val_b64Char (b0 % 4 * 16) (by omega),
      Nat.mul_mod_left, if_pos, Option.some.injEq, List.cons.injEq, and_true,
      reduceIte]
    omega
  | [b0, b1], h => by
    have hb0 : b0 < 256 := h b0 (by simp)
    have hb1 : b1 < 256 := h b1 (by simp)
    simp only [base64EncodeList, base64DecodeList,
      b64Val_b64Char (b0 / 4) (by omega),
      b64Val_b64Char (b0 % 4 * 16 + b1 / 16) (by omega),
      b64Val_b64Char (b1 % 16 * 4) (by omega),
      b64Char_ne_pad (b1 % 16 * 4) (by omega),
      Nat.mul_mod_left, if_pos, Option.some.injEq, List.cons.injEq, and_true,
      reduceIte, if_neg, not_false_eq_true]
    omega
  | b0 :: b1 :: b2 :: rest, h => by
    have hb0 : b0 < 256 := h b0 (by simp)
    have hb1 : b1 < 256 := h b1 (by simp)
    have hb2 : b2 < 256 := h b2 (by simp)
    have ih := base64_roundtrip rest (fun b hb => h b (by simp; tauto))
    simp only [base64EncodeList, base64DecodeList,
      b64Val_b64Char (b0 / 4) (by omega),
      b64Val_b64Char (b0 % 4 * 16 + b1 / 16) (by omega),
      b64Val_b64Char (b1 % 16 * 4 + b2 / 64) (by omega),
      b64Val_b64Char (b2 % 64) (by omega),
      b64Char_ne_pad (b1 % 16 * 4 + b2 / 64) (by omega),
      b64Char_ne_pad (b2 % 64) (by omega),
      if_neg, not_false_eq_true, ih, Option.map_some, Option.map_some',
      Option.some.injEq, List.cons.injEq, and_true]
    omega

/-- Base64 decoding inverts encoding, on strings. -/
theorem base64Decode_encode (bs : List Nat) (h : ∀ b ∈ bs, b < 256) :
    base64Decode (base64Encode bs) = some bs := by
  simpa [base64Decode, base64Encode] using base64_roundtrip bs h

/-- Splitting on a character that does not occur leaves the single
segment. -/
theorem splitLastAux_of_no_q : ∀ (l acc : List Char), ¬ '?' ∈ l →
    splitLastAux l acc = acc.reverse ++ l
  | [], acc, _ => by simp [splitLastAux]
  | c :: rest, acc, h => by
    have hc : ¬ c = '?' := fun hc => h (by simp [hc])
    have hrest : ¬ '?' ∈ rest := fun hr => h (by simp [hr])
    rw [splitLastAux, if_neg hc, splitLastAux_of_no_q rest (c :: acc) hrest]
    simp

/-- A URI without `?` is its own last `?`-segment. -/
theorem splitLast_of_no_q (s : String) (h : ¬ '?' ∈ s.data) : splitLast s = s := by
  rw [splitLast, splitLastAux_of_no_q s.data [] h]
  rfl

/-- Two's-complement wrapping is the identity inside the `i64` range. -/
theorem i64Wrap_of_range (x : Int) (h1 : -9223372036854775808 ≤ x)
    (h2 : x < 9223372036854775808) : i64Wrap x = x := by
  unfold i64Wrap
  omega

/-- Rust `i64::abs` agrees with mathematical absolute value away from
the `i64::MIN` corner. -/
theorem i64Abs_of_range (x : Int) (h1 : -9223372036854775808 < x)
    (h2 : x < 9223372036854775808) : i64Abs x = |x| := by
  unfold i64Abs i64Wrap
  rcases lt_or_le x 0 with h | h
  · rw [if_pos h, abs_of_neg h]
    omega
  · rw [if_neg (not_lt.mpr h), abs_of_nonneg h]

/-- Away from the `i64` overflow corner the window test is the
mathematical comparison. -/
theorem timestampOutOfWindow_iff (t now W : Int)
    (h1 : -9223372036854775808 < t - now)
    (h2 : t - now < 9223372036854775808) :
    (timestampOutOfWindow t now W = true ↔ |t - now| > W) := by
  rw [timestampOutOfWindow, i64Wrap_of_range _ (le_of_lt h1) h2,
    i64Abs_of_range _ h1 h2]
  simp

/-- Header lookup after inserting that very name. -/
theorem headerGet_insert_self (n v : String) (hs : List (String × String)) :
    headerGet n (headerInsert n v hs) = some v := by
  simp [headerGet, headerInsert, List.find?]

/-- Filtering away another name's entries does not change a lookup. -/
theorem find_filter_other (n n' : String) (h : ¬ n = n') :
    ∀ hs : List (String × String),
      List.find? (fun p => p.1 = n) (hs.filter (fun p => p.1 ≠ n'))
        = List.find? (fun p => p.1 = n) hs
  | [] => rfl
  | p :: hs => by
    rcases eq_or_ne p.1 n' with hp | hp
    · have hn : ¬ p.1 = n := by rw [hp]; exact fun he => h he.symm
      rw [List.filter_cons_of_neg (by simpa using hp),
        List.find?_cons_of_neg hs (by simpa using hn),
        find_filter_other n n' h hs]
    · rw [List.filter_cons_of_pos (by simpa using hp)]
      rcases eq_or_ne p.1 n with he | he
      · rw [List.find?_cons_of_pos _ (by simpa using he),
          List.find?_cons_of_pos _ (by simpa using he)]
      · rw [List.find?_cons_of_neg _ (by simpa using he),
          List.find?_cons_of_neg _ (by simpa using he),
          find_filter_other n n' h hs]

/-- Header lookup after inserting a different name. -/
theorem headerGet_insert_other (n n' v : String) (hs : List (String × String))
    (h : ¬ n = n') : headerGet n (headerInsert n' v hs) = headerGet n hs := by
  simp only [headerGet, headerInsert, List.find?]
  have hne : (decide (n' = n)) = false := by
    simp only [decide_eq_false_iff_not]
    exact fun he => h he.symm
  rw [hne]
  rw [find_filter_other n n' h hs]

/-! ## Claim theorems -/

/-- C1, counterexample: for the GET request of the repository's own
test (`/api/available-code?address=init&linkType=0`), the signing
string the verifier computes is just the query string
`address=init&linkType=0`; it does not begin with the request target
as transmitted (path plus query string). -/
theorem c1_counterexample :
    signingString Method.GET "/api/available-code?address=init&linkType=0" ""
        = "address=init&linkType=0"
      ∧ List.isPrefixOf ("/api/available-code?address=init&linkType=0".data)
          (signingString Method.GET
            "/api/available-code?address=init&linkType=0" "").data
        = false := by decide

/-- C1, amended: the signing string begins with the segment of the
request target after its last `?` (the full target exactly when the
target contains no `?`), and for non-GET methods continues with the
UTF-8-decoded body text concatenated directly with no separator. -/
theorem c1_signing_string_shape :
    ∀ (m : Method) (uri bodyStr : String),
      signingString m uri bodyStr
          = splitLast uri ++ (if m = Method.GET then "" else bodyStr)
        ∧ (¬ '?' ∈ uri.data → splitLast uri = uri) := by
  intro m uri bodyStr
  refine ⟨?_, splitLast_of_no_q uri⟩
  unfold signingString
  rcases eq_or_ne m Method.GET with hm | hm
  · rw [if_neg (by simp [hm]), if_pos hm, String.append_empty]
  · rw [if_pos hm, if_neg hm]

/-- C1, witness for the amended theorem at a concrete non-GET input. -/
theorem c1_signing_string_shape_witness :
    (signingString Method.POST "/p" "x"
        = splitLast "/p" ++ (if Method.POST = Method.GET then "" else "x"))
      ∧ splitLast "/p" = "/p" :=
  ⟨(c1_signing_string_shape Method.POST "/p" "x").1,
    (c1_signing_string_shape Method.POST "/p" "x").2 (by decide)⟩

/-- C2: a request whose `apiSig` is not valid standard Base64 does not
produce the typed 400 rejection the code builds for that case: the
`Result::unwrap()` on line 112 of `param_verify.rs` panics on the
`Err`, so the panic escapes the authenticator instead. -/
theorem c2_invalid_base64_panics :
    signVerifyCall "your_secret_key" 20 0
        { method := Method.GET, uri := "/x", apiSig := some "%%%",
          timestampHeader := some "0", body := [] }
      = CallOutcome.panicked 400 "base64 decode signature error" := by decide

/-- C3, counterexample: with `now = 1700000000`, window 20 and parsed
timestamp `t = now - 2^63`, the difference `t - now` is `i64::MIN`,
whose Rust `abs` wraps to `i64::MIN < 20`, so the verifier proceeds
past the window check (here to the signature-mismatch rejection) even
though mathematically `|t - now| = 2^63 > 20`; the claim requires a 401
timestamp rejection at this input. -/
theorem c3_counterexample :
    timestampOutOfWindow (-9223372035154775808) 1700000000 20 = false
      ∧ |(-9223372035154775808 : Int) - 1700000000| > 20
      ∧ signVerifyCall "your_secret_key" 20 1700000000
            { method := Method.GET, uri := "/x", apiSig := some "AAAA",
              timestampHeader := some "-9223372035154775808", body := [] }
          = CallOutcome.reject 401 "api signature verify error" := by
  set_option maxRecDepth 100000 in decide

/-- C3, amended: whenever the difference `t - now` of the parsed
timestamp and the current time lies strictly inside the `i64` range
(so the `i64` subtraction and `abs` do not wrap), the verifier rejects
with 401 "request timeout" exactly when `|t - now| > W`; in particular
the boundary values `t = now ± W` pass the window check and
`t = now ± (W + 1)` do not. At the wrap-around inputs the release-mode
code accepts instead (see the counterexample). -/
theorem c3_timestamp_window_exact (secret : String) (W now t : Int)
    (req : HttpRequest) (sign tsStr : String)
    (hs : req.apiSig = some sign) (hts : req.timestampHeader = some tsStr)
    (hp : parseI64 tsStr = some t)
    (h1 : -9223372036854775808 < t - now)
    (h2 : t - now < 9223372036854775808) :
    (signVerifyCall secret W now req
        = CallOutcome.reject 401 "request timeout"
      ↔ |t - now| > W) := by
  simp only [signVerifyCall, hs, hts, hp]
  by_cases hw : |t - now| > W
  · rw [if_pos ((timestampOutOfWindow_iff t now W h1 h2).mpr hw)]
    simp [hw]
  · have hfalse : ¬ timestampOutOfWindow t now W = true := fun ht =>
      hw ((timestampOutOfWindow_iff t now W h1 h2).mp ht)
    rw [if_neg (by simpa using hfalse)]
    refine iff_of_false ?_ hw
    cases hbody : utf8Decode req.body with
    | none => simp
    | some bodyStr =>
      cases hdec : base64Decode sign with
      | none => simp
      | some signDecode =>
        simp only []
        split <;> simp

/-- C3, witness for the amended theorem: a timestamp 21 seconds in the
future of a 20-second window is rejected as a timeout. -/
theorem c3_timestamp_window_exact_witness :
    (signVerifyCall "your_secret_key" 20 1700000000
        { method := Method.GET, uri := "/x", apiSig := some "sig",
          timestampHeader := some "1700000021", body := [] }
        = CallOutcome.reject 401 "request timeout"
      ↔ |(1700000021 : Int) - 1700000000| > 20) :=
  c3_timestamp_window_exact "your_secret_key" 20 1700000000 1700000021
    { method := Method.GET, uri := "/x", apiSig := some "sig",
      timestampHeader := some "1700000021", body := [] }
    "sig" "1700000021" rfl rfl (by decide) (by decide) (by decide)

/-- C4: HMAC-SHA256 with secret `your_secret_key` over the signing
string `address=init&linkType=0`, Base64-encoded, is exactly the
signature of the repository's `test_encode`, and the GET request of
`test_check` bearing it with an in-window timestamp is accepted and
forwarded. -/
theorem c4_concrete_scenario :
    base64Encode (hmacSha256 (strBytes "your_secret_key")
        (strBytes "address=init&linkType=0"))
        = "kEU67gzX2pYgGlhsHXDxg0YtM7z8YYG6cQI8rl22eF4="
      ∧ signVerifyCall "your_secret_key" 20 1700000000
          { method := Method.GET,
            uri := "/api/available-code?address=init&linkType=0",
            apiSig := some "kEU67gzX2pYgGlhsHXDxg0YtM7z8YYG6cQI8rl22eF4=",
            timestampHeader := some "1700000000", body := [] }
          = CallOutcome.forward
              { method := Method.GET,
                uri := "/api/available-code?address=init&linkType=0",
                apiSig := some "kEU67gzX2pYgGlhsHXDxg0YtM7z8YYG6cQI8rl22eF4=",
                timestampHeader := some "1700000000", body := [] } := by
  set_option maxRecDepth 100000 in decide

/-- C5, counterexample: signing the spec's canonical string — the full
target `/a?b=1` concatenated with the body `x` — and presenting the
request to the verifier is rejected, because the verifier signs only
the last `?`-segment `b=1` plus the body. -/
theorem c5_counterexample :
    signVerifyCall "your_secret_key" 20 0
        { method := Method.POST, uri := "/a?b=1",
          apiSig := some (base64Encode (hmacSha256 (strBytes "your_secret_key")
            (strBytes ("/a?b=1" ++ "x")))),
          timestampHeader := some "0", body := [120] }
      = CallOutcome.reject 401 "api signature verify error" := by
  set_option maxRecDepth 100000 in decide

/-- C5, amended: for every secret, every target containing no `?`
(so the code's last-`?`-segment is the whole target), every non-GET
method and UTF-8 body, computing HMAC-SHA256 over target ++ body,
Base64-encoding it into `apiSig` and presenting the request with an
in-window timestamp is accepted. -/
theorem c5_sign_then_verify (secret uri bodyStr tsStr : String)
    (body : List Nat) (m : Method) (W now t : Int)
    (hq : ¬ '?' ∈ uri.data) (hm : ¬ m = Method.GET)
    (hb : utf8Decode body = some bodyStr)
    (hp : parseI64 tsStr = some t)
    (hw : timestampOutOfWindow t now W = false) :
    signVerifyCall secret W now
        { method := m, uri := uri,
          apiSig := some (base64Encode (hmacSha256 (strBytes secret)
            (strBytes (uri ++ bodyStr)))),
          timestampHeader := some tsStr, body := body }
      = CallOutcome.forward
          { method := m, uri := uri,
            apiSig := some (base64Encode (hmacSha256 (strBytes secret)
              (strBytes (uri ++ bodyStr)))),
            timestampHeader := some tsStr, body := body } := by
  have hss : signingString m uri bodyStr = uri ++ bodyStr := by
    unfold signingString
    rw [if_pos hm, splitLast_of_no_q uri hq]
  simp only [signVerifyCall, hp, hb, hw, Bool.false_eq_true, if_false,
    base64Decode_encode _ (hmacSha256_lt _ _), hss, eq_self_iff_true, if_true]

/-- C5, witness for the amended theorem: a concrete POST round trip. -/
theorem c5_sign_then_verify_witness :
    signVerifyCall "k" 20 5
        { method := Method.POST, uri := "/p",
          apiSig := some (base64Encode (hmacSha256 (strBytes "k")
            (strBytes ("/p" ++ "x")))),
          timestampHeader := some "5", body := [120] }
      = CallOutcome.forward
          { method := Method.POST, uri := "/p",
            apiSig := some (base64Encode (hmacSha256 (strBytes "k")
              (strBytes ("/p" ++ "x")))),
            timestampHeader := some "5", body := [120] } :=
  c5_sign_then_verify "k" "/p" "x" "5" [120] Method.POST 20 5 5
    (by decide) (by decide) (by decide) (by decide) (by decide)

/-- C6: for GET requests the body never enters the signing string, so
two GET requests that agree on target, headers and signature and differ
only in their UTF-8-decodable bodies get the identical verification
decision. -/
theorem c6_get_body_irrelevant (secret : String) (W now : Int)
    (uri : String) (sig ts : Option String) (b1 b2 : List Nat)
    (s1 s2 : String)
    (h1 : utf8Decode b1 = some s1) (h2 : utf8Decode b2 = some s2) :
    decisionOf (signVerifyCall secret W now
        { method := Method.GET, uri := uri, apiSig := sig,
          timestampHeader := ts, body := b1 })
      = decisionOf (signVerifyCall secret W now
          { method := Method.GET, uri := uri, apiSig := sig,
            timestampHeader := ts, body := b2 }) := by
  have hss : ∀ s, signingString Method.GET uri s = splitLast uri := by
    intro s
    unfold signingString
    rw [if_neg (by simp)]
  cases sig with
  | none => rfl
  | some sign =>
    cases ts with
    | none => rfl
    | some tsStr =>
      simp only [signVerifyCall, h1, h2, hss]
      rcases hpt : parseI64 tsStr with _ | t
      · rfl
      · by_cases hw : timestampOutOfWindow t now W = true
        · simp [hw]
        · simp only [Bool.not_eq_true] at hw
          simp only [hw, Bool.false_eq_true, if_false]
          rcases hbd : base64Decode sign with _ | d
          · rfl
          · by_cases hd : d = hmacSha256 (strBytes secret) (strBytes (splitLast uri))
            · simp [hd, decisionOf]
            · simp [hd, decisionOf]

/-- C6, witness: two concrete GET requests differing only in body get
the same decision. -/
theorem c6_get_body_irrelevant_witness :
    decisionOf (signVerifyCall "your_secret_key" 20 0
        { method := Method.GET, uri := "/x", apiSig := some "AAAA",
          timestampHeader := some "0", body := [104] })
      = decisionOf (signVerifyCall "your_secret_key" 20 0
          { method := Method.GET, uri := "/x", apiSig := some "AAAA",
            timestampHeader := some "0", body := [105] }) :=
  c6_get_body_irrelevant "your_secret_key" 20 0 "/x" (some "AAAA")
    (some "0") [104] [105] "h" "i" (by decide) (by decide)

/-- C7: whatever request the authenticator forwards downstream is the
request it received — in particular the body bytes are restored
byte-identically by `set_body`, and method, target and headers are
untouched. -/
theorem c7_forwarded_unchanged (secret : String) (W now : Int)
    (req fwd : HttpRequest)
    (h : signVerifyCall secret W now req = CallOutcome.forward fwd) :
    fwd = req := by
  unfold signVerifyCall at h
  repeat' split at h
  all_goals try exact CallOutcome.noConfusion h
  injection h with h'
  exact h'.symm

/-- C7, witness: the accepted request of the repository's own test is
forwarded unchanged. -/
theorem c7_forwarded_unchanged_witness :
    ({ method := Method.GET,
       uri := "/api/available-code?address=init&linkType=0",
       apiSig := some "kEU67gzX2pYgGlhsHXDxg0YtM7z8YYG6cQI8rl22eF4=",
       timestampHeader := some "1700000000", body := [] } : HttpRequest)
      = { method := Method.GET,
          uri := "/api/available-code?address=init&linkType=0",
          apiSig := some "kEU67gzX2pYgGlhsHXDxg0YtM7z8YYG6cQI8rl22eF4=",
          timestampHeader := some "1700000000", body := [] } :=
  c7_forwarded_unchanged "your_secret_key" 20 1700000000
    { method := Method.GET,
      uri := "/api/available-code?address=init&linkType=0",
      apiSig := some "kEU67gzX2pYgGlhsHXDxg0YtM7z8YYG6cQI8rl22eF4=",
      timestampHeader := some "1700000000", body := [] }
    { method := Method.GET,
      uri := "/api/available-code?address=init&linkType=0",
      apiSig := some "kEU67gzX2pYgGlhsHXDxg0YtM7z8YYG6cQI8rl22eF4=",
      timestampHeader := some "1700000000", body := [] }
    (by set_option maxRecDepth 100000 in decide)

/-- C8: a request without the `apiSig` header is rejected with 400 and
the missing-signature reason, whatever the state of its other headers,
timestamp or body — the check is the first one decided. -/
theorem c8_missing_apiSig (secret : String) (W now : Int)
    (req : HttpRequest) (h : req.apiSig = none) :
    signVerifyCall secret W now req
      = CallOutcome.reject 400 "missing header apiSig" := by
  simp only [signVerifyCall, h]

/-- C8, witness: a request with a malformed timestamp header and no
`apiSig` is still rejected for the missing signature. -/
theorem c8_missing_apiSig_witness :
    signVerifyCall "your_secret_key" 20 0
        { method := Method.GET, uri := "/x", apiSig := none,
          timestampHeader := some "not-a-number", body := [0] }
      = CallOutcome.reject 400 "missing header apiSig" :=
  c8_missing_apiSig "your_secret_key" 20 0
    { method := Method.GET, uri := "/x", apiSig := none,
      timestampHeader := some "not-a-number", body := [0] } rfl

/-- C9: every response passing through the no-cache filter carries
`Cache-Control: no-store, no-cache, must-revalidate, max-age=0`,
`Expires: 0` and `Pragma: no-cache`, overwriting any prior values of
those three fields. -/
theorem c9_no_cache_headers (resp : HttpResponse) :
    headerGet "cache-control" (noCacheCall resp).headers
        = some "no-store, no-cache, must-revalidate, max-age=0"
      ∧ headerGet "expires" (noCacheCall resp).headers = some "0"
      ∧ headerGet "pragma" (noCacheCall resp).headers = some "no-cache" := by
  unfold noCacheCall
  refine ⟨?_, ?_, ?_⟩
  · rw [headerGet_insert_other _ _ _ _ (by decide),
      headerGet_insert_other _ _ _ _ (by decide), headerGet_insert_self]
  · rw [headerGet_insert_other _ _ _ _ (by decide), headerGet_insert_self]
  · rw [headerGet_insert_self]

/-- C10: a GET request whose body is not valid UTF-8 is rejected with
400 "body parse error" even though a GET signing string never uses the
body: the decode happens before the method is consulted. -/
theorem c10_get_bad_utf8_rejected (secret : String) (W now t : Int)
    (req : HttpRequest) (sign tsStr : String)
    (hs : req.apiSig = some sign) (hts : req.timestampHeader = some tsStr)
    (hp : parseI64 tsStr = some t)
    (hw : timestampOutOfWindow t now W = false)
    (_hm : req.method = Method.GET)
    (hb : utf8Decode req.body = none) :
    signVerifyCall secret W now req
      = CallOutcome.reject 400 "body parse error" := by
  simp only [signVerifyCall, hs, hts, hp, hw, hb, Bool.false_eq_true, if_false]

/-- C10, witness: a GET request with body byte `0xFF` is rejected as a
body parse error. -/
theorem c10_get_bad_utf8_rejected_witness :
    signVerifyCall "your_secret_key" 20 0
        { method := Method.GET, uri := "/x", apiSig := some "AAAA",
          timestampHeader := some "0", body := [255] }
      = CallOutcome.reject 400 "body parse error" :=
  c10_get_bad_utf8_rejected "your_secret_key" 20 0 0
    { method := Method.GET, uri := "/x", apiSig := some "AAAA",
      timestampHeader := some "0", body := [255] }
    "AAAA" "0" rfl rfl (by decide) (by decide) rfl (by decide)

end PoemMW

